import Mathlib

/-!
# Shallow embedding of `src/lessons-storage.js`

The source is a browser storage façade (`class LessonsStorage`) that keeps
"lesson" records either in IndexedDB (the transactional backend) or, as a
fallback, in `localStorage` (the synchronous key-value backend).

Embedding conventions:
* JavaScript promises that resolve become plain values; promises that can
  reject become `Except`.
* The asynchronous IndexedDB request outcome is passed in explicitly as an
  `Option JsError` (`none` = the request's `onsuccess` fires, `some e` = its
  `onerror` fires with `request.error = e`).
* `JSON.stringify` / `JSON.parse` round-tripping through `localStorage` is
  modelled by storing the structured value directly (`LSVal`), together with a
  concrete model `LSVal.size` of the serialized string length, which is what
  the quota check consumes.
* Mutation of `this` becomes explicit state passing over `St`.
-/

set_option autoImplicit false

namespace LessonsStore

/-- A lesson record: the source treats lessons as opaque structured values with
one required primary-key attribute `id`; the rest is an uninterpreted payload,
modelled as a string `body`. -/
structure Lesson where
  id : Nat
  body : String
deriving Repr, DecidableEq

/-- A JavaScript error value as seen by the `catch` blocks and `request.error`
slots of the source: a `name`, a numeric `code` and a `message`. -/
structure JsError where
  name : String
  code : Nat
  message : String
deriving Repr, DecidableEq

/-- Errors surfaced by the façade to its callers: either the distinguished
quota error created by `new Error('Storage quota exceeded...')`, or a re-thrown
backend error. -/
inductive StorageError where
  | quotaExceeded (msg : String)
  | js (e : JsError)
deriving Repr, DecidableEq

/-- Serializable values the program ever writes to `localStorage`: only the
lessons array under the fixed key `'aiLessons'`. The JSON round trip
(`JSON.parse ∘ JSON.stringify = id`) is modelled as storing the array itself. -/
inductive LSVal where
  | arr (lessons : List Lesson)
deriving Repr, DecidableEq

/-- Model of `JSON.stringify(lesson).length`: two braces, the two quoted field
names with punctuation, the decimal digits of `id` and the quoted `body`. -/
def Lesson.jsonSize (l : Lesson) : Nat :=
  18 + (toString l.id).length + l.body.length

/-- Model of `JSON.stringify(lessons).length` for an array: two brackets, the
records, and one comma separator slot per record. -/
def lessonsJsonSize (ls : List Lesson) : Nat :=
  2 + (ls.map Lesson.jsonSize).sum + ls.length

/-- Serialized length of a stored value. -/
def LSVal.size : LSVal → Nat
  | .arr ls => lessonsJsonSize ls

/-- The browser `localStorage` object: a key-value table plus a simulated
capacity limit (in serialized characters) past which `setItem` throws
`QuotaExceededError`. -/
structure LocalStore where
  items : List (String × LSVal)
  capacity : Nat
deriving Repr, DecidableEq

/-- The error a browser throws when `localStorage.setItem` exceeds the quota:
name `QuotaExceededError`, legacy `code` 22. -/
def quotaErr : JsError :=
  { name := "QuotaExceededError", code := 22, message := "The quota has been exceeded." }

/-- `localStorage.getItem(key)`: the stored value or null. -/
def LocalStore.getItem (s : LocalStore) (key : String) : Option LSVal :=
  (s.items.find? (fun p => p.1 == key)).map Prod.snd

/-- Key-value upsert used by `setItem`: replace the entry for `key` if present,
else append it. -/
def upsertKV (items : List (String × LSVal)) (key : String) (v : LSVal) :
    List (String × LSVal) :=
  match items with
  | [] => [(key, v)]
  | (k0, v0) :: rest =>
    if k0 == key then (key, v) :: rest else (k0, v0) :: upsertKV rest key v

/-- `localStorage.setItem(key, v)`: stores the value, or throws
`QuotaExceededError` (leaving the store unchanged) when the serialized value
exceeds the simulated capacity. -/
def LocalStore.setItem (s : LocalStore) (key : String) (v : LSVal) :
    Except JsError LocalStore :=
  if v.size > s.capacity then .error quotaErr
  else .ok { s with items := upsertKV s.items key v }

/-- A record of the IndexedDB `'metadata'` object store (`keyPath: 'key'`);
the program only ever stores the boolean `migrated` flag. -/
structure MetaRec where
  key : String
  value : Bool
deriving Repr, DecidableEq

/-- Content of the opened IndexedDB database: the `'lessons'` object store
(`keyPath: 'id'`) and the `'metadata'` object store (`keyPath: 'key'`). -/
structure IDB where
  lessons : List Lesson
  metadata : List MetaRec
deriving Repr, DecidableEq

/-- `store.put(lesson)` on the `'lessons'` store: keyed upsert by `id`
(replace the record with the same key, else insert). -/
def putLesson (arr : List Lesson) (item : Lesson) : List Lesson :=
  match arr with
  | [] => [item]
  | x :: rest => if x.id == item.id then item :: rest else x :: putLesson rest item

/-- `store.put({key, value})` on the `'metadata'` store: keyed upsert by `key`. -/
def putMeta (arr : List MetaRec) (m : MetaRec) : List MetaRec :=
  match arr with
  | [] => [m]
  | x :: rest => if x.key == m.key then m :: rest else x :: putMeta rest m

/-- `store.get(key)` on the `'metadata'` store followed by `?.value`
(line 249 of the source). -/
def IDB.getMeta (db : IDB) (key : String) : Option Bool :=
  (db.metadata.find? (fun m => m.key == key)).map MetaRec.value

/-- The mutable fields of the `LessonsStorage` instance (lines 8-14), plus the
ambient `localStorage` of the page, threaded as part of the state. -/
structure St where
  useIndexedDB : Bool
  db : Option IDB
  initialized : Bool
  localStore : LocalStore
deriving Repr, DecidableEq

/-- The constructor (lines 8-14): `useIndexedDB = true`, `db = null`,
`initialized = false`. -/
def mkStorage (ls : LocalStore) : St :=
  { useIndexedDB := true, db := none, initialized := false, localStore := ls }

/-- The dispatch guard `this.useIndexedDB && this.db` used by every
operation: the active IndexedDB handle, when the transactional backend is in
use. -/
def St.idbActive (st : St) : Option IDB :=
  if st.useIndexedDB then st.db else none

/-- Lessons currently held by the transactional store (empty when no handle). -/
def St.dbLessons (st : St) : List Lesson :=
  match st.db with
  | some db => db.lessons
  | none => []

/-- Metadata records currently held by the transactional store. -/
def St.dbMetadata (st : St) : List MetaRec :=
  match st.db with
  | some db => db.metadata
  | none => []

/-- The persisted `migrated` flag as the program reads it. -/
def St.migratedFlag (st : St) : Option Bool :=
  match st.db with
  | some db => db.getMeta "migrated"
  | none => none

/-! ## The CRUD façade, after the leading `await this.init()` of each method

Each `...Run` function is the body of the public method from the point where
`init` has already returned; the public wrappers prepend the `init` call. -/

/-- The catch clause of `saveToLocalStorage` (lines 277-282): translate a
quota error into the distinguished user-facing error, re-throw anything else. -/
def saveToLSCatch (e : JsError) : StorageError :=
  if e.name == "QuotaExceededError" || e.code == 22 then
    .quotaExceeded "Storage quota exceeded. Your data is too large for localStorage. Please enable IndexedDB support in your browser."
  else .js e

/-- `saveToLocalStorage(storageKey, item, true)` (lines 259-283), the array
branch used by `saveLesson`: read the stored array, replace the entry whose
`id` matches (`findIndex` / assignment) or push the item, re-serialize, and
translate a quota failure. On failure the store is unchanged (the failing
`setItem` does not write). -/
def saveToLocalStorageArr (ls : LocalStore) (storageKey : String) (item : Lesson) :
    LocalStore × Except StorageError Bool :=
  let array : List Lesson :=
    match ls.getItem storageKey with
    | some (.arr a) => a
    | none => []
  let array2 : List Lesson :=
    match array.findIdx? (fun i => i.id == item.id) with
    | some index => array.set index item
    | none => array ++ [item]
  match ls.setItem storageKey (.arr array2) with
  | .ok ls2 => (ls2, .ok true)
  | .error e => (ls, .error (saveToLSCatch e))

/-- `saveLesson` after its `init` call (lines 97-112): under the transactional
backend a `put` into `'lessons'` that resolves `true` or rejects with the
request error; otherwise the localStorage array upsert. -/
def saveLessonRun (st : St) (lesson : Lesson) (reqErr : Option JsError) :
    St × Except StorageError Bool :=
  match st.idbActive with
  | some db =>
    match reqErr with
    | some e => (st, .error (.js e))
    | none =>
      ({ st with db := some { db with lessons := putLesson db.lessons lesson } }, .ok true)
  | none =>
    let r := saveToLocalStorageArr st.localStore "aiLessons" lesson
    ({ st with localStore := r.1 }, r.2)

/-- `getAllLessons` after its `init` call (lines 121-137): `getAll` on
`'lessons'`, resolving the stored records, or `[]` on a request error (the
read never rejects); under the fallback, the parsed `'aiLessons'` entry or
`[]` when absent. -/
def getAllLessonsRun (st : St) (reqErr : Option JsError) : List Lesson :=
  match st.idbActive with
  | some db =>
    match reqErr with
    | some _ => []
    | none => db.lessons
  | none =>
    match st.localStore.getItem "aiLessons" with
    | some (.arr a) => a
    | none => []

/-- `getLesson` after its `init` call (lines 146-158): point `get` by id,
resolving the record or `undefined`/`null` (modelled `none`); a request error
resolves `null` instead of rejecting; under the fallback, a linear `find`
over `getAllLessons()`. -/
def getLessonRun (st : St) (lessonId : Nat) (reqErr : Option JsError) :
    Except StorageError (Option Lesson) :=
  match st.idbActive with
  | some db =>
    match reqErr with
    | some _ => .ok none
    | none => .ok (db.lessons.find? (fun l => l.id == lessonId))
  | none =>
    .ok ((getAllLessonsRun st none).find? (fun l => l.id == lessonId))

/-- The catch clause of `saveAllLessons` (lines 209-214): translate a quota
error, re-throw anything else as-is. -/
def saveAllCatch (e : JsError) : StorageError :=
  if e.name == "QuotaExceededError" || e.code == 22 then
    .quotaExceeded "Storage quota exceeded. Your lesson is too large. Please enable IndexedDB in your browser or reduce lesson size."
  else .js e

/-- The fallback branch of `saveAllLessons` (lines 204-215): serialize and
store the whole array under `'aiLessons'`; on failure the previously stored
value is unchanged and the error is translated by the catch clause. -/
def saveAllLessonsLS (ls : LocalStore) (lessons : List Lesson) :
    LocalStore × Except StorageError Bool :=
  match ls.setItem "aiLessons" (.arr lessons) with
  | .ok ls2 => (ls2, .ok true)
  | .error e => (ls, .error (saveAllCatch e))

/-- The `for (const lesson of lessons) await this.saveLesson(lesson)` loops
(lines 78-80 and 200-202): save each record sequentially via `put`; a
rejection of one save aborts the loop (the `await` throws). `saveFail`
injects the outcome of each record's put request. Returns the resulting
store, the records whose save was attempted, and the first error if any. -/
def saveEachLoop (db : IDB) (lessons : List Lesson) (saveFail : Lesson → Option JsError) :
    IDB × List Lesson × Option JsError :=
  match lessons with
  | [] => (db, [], none)
  | l :: rest =>
    match saveFail l with
    | some e => (db, [l], some e)
    | none =>
      let r := saveEachLoop { db with lessons := putLesson db.lessons l } rest saveFail
      (r.1, l :: r.2.1, r.2.2)

/-- `saveAllLessons` after its `init` call (lines 190-215): under the
transactional backend, clear the `'lessons'` store, then save each record
sequentially (a rejected save propagates to the caller — there is no `try`
on this path); under the fallback, the whole-array store with quota
translation. -/
def saveAllLessonsRun (st : St) (lessons : List Lesson)
    (saveFail : Lesson → Option JsError) : St × Except StorageError Bool :=
  match st.idbActive with
  | some db =>
    let cleared : IDB := { db with lessons := [] }
    let r := saveEachLoop cleared lessons saveFail
    match r.2.2 with
    | some e => ({ st with db := some r.1 }, .error (.js e))
    | none => ({ st with db := some r.1 }, .ok true)
  | none =>
    let r := saveAllLessonsLS st.localStore lessons
    ({ st with localStore := r.1 }, r.2)

/-- `deleteLesson` after its `init` call (lines 167-181): keyed delete in a
write transaction (resolving `true`, rejecting with the request error);
under the fallback, read all, filter out the matching `id`, and re-save the
whole filtered array through `saveAllLessons`. -/
def deleteLessonRun (st : St) (lessonId : Nat) (reqErr : Option JsError)
    (saveFail : Lesson → Option JsError) : St × Except StorageError Bool :=
  match st.idbActive with
  | some db =>
    match reqErr with
    | some e => (st, .error (.js e))
    | none =>
      ({ st with db := some { db with lessons := db.lessons.filter (fun l => l.id != lessonId) } },
       .ok true)
  | none =>
    let lessons := getAllLessonsRun st none
    let filtered := lessons.filter (fun l => l.id != lessonId)
    saveAllLessonsRun st filtered saveFail

/-- `saveMetadata` after its `init` call (lines 224-234): `put {key, value}`
into `'metadata'` under the transactional backend; under the fallback it is a
no-op resolving `true`. -/
def saveMetadataRun (st : St) (key : String) (value : Bool) (reqErr : Option JsError) :
    St × Except StorageError Bool :=
  match st.idbActive with
  | some db =>
    match reqErr with
    | some e => (st, .error (.js e))
    | none =>
      ({ st with db := some { db with metadata := putMeta db.metadata ⟨key, value⟩ } }, .ok true)
  | none => (st, .ok true)

/-- `getMetadata` after its `init` call (lines 243-253): point lookup
resolving `request.result?.value`; a request error resolves `null`; under the
fallback it always resolves `null`. -/
def getMetadataRun (st : St) (key : String) (reqErr : Option JsError) : Option Bool :=
  match st.idbActive with
  | some db =>
    match reqErr with
    | some _ => none
    | none => db.getMeta key
  | none => none

/-- The report of `getStorageInfo` (lines 291-294). -/
structure StorageInfo where
  type : String
  lessonsCount : Nat
deriving Repr, DecidableEq

/-- `getStorageInfo` after its `init` call (lines 291-294). -/
def getStorageInfoRun (st : St) (reqErr : Option JsError) : StorageInfo :=
  { type := if st.useIndexedDB then "IndexedDB" else "LocalStorage"
    lessonsCount := (getAllLessonsRun st reqErr).length }

/-! ## Migration runner -/

/-- The body of `migrateFromLocalStorage` (lines 68-89) when the transactional
backend is active (the only call site, line 46, runs right after a successful
open). Reads the `migrated` flag (`if (migrated) return`), parses the legacy
`'aiLessons'` entry if present, saves each record sequentially — a rejected
save throws into the surrounding `catch`, which only logs, so the remaining
records are skipped and the flag is not set — and otherwise persists
`migrated = true`. Never throws. Returns the resulting database content and
the records whose save was attempted. -/
def migrateIDB (db : IDB) (ls : LocalStore) (saveFail : Lesson → Option JsError) :
    IDB × List Lesson :=
  match db.getMeta "migrated" with
  | some true => (db, [])
  | _ =>
    let step : IDB × List Lesson × Option JsError :=
      match ls.getItem "aiLessons" with
      | some (.arr lessons) => saveEachLoop db lessons saveFail
      | none => (db, [], none)
    match step.2.2 with
    | some _ => (step.1, step.2.1)
    | none =>
      ({ step.1 with metadata := putMeta step.1.metadata ⟨"migrated", true⟩ }, step.2.1)

/-- The fallback-dispatch loop inside `migrateFromLocalStorage` when the
transactional backend is NOT active (unreachable from the source's single call
site, line 46, but included for a total translation): each `saveLesson`
dispatches to the localStorage upsert; a thrown error aborts the loop into the
catch. -/
def saveEachLoopLS (ls : LocalStore) (lessons : List Lesson) :
    LocalStore × List Lesson × Option StorageError :=
  match lessons with
  | [] => (ls, [], none)
  | l :: rest =>
    match saveToLocalStorageArr ls "aiLessons" l with
    | (ls2, .ok _) =>
      let r := saveEachLoopLS ls2 rest
      (r.1, l :: r.2.1, r.2.2)
    | (_, .error e) => (ls, [l], some e)

/-- `migrateFromLocalStorage` (lines 68-89) over the full component state,
dispatching every inner storage call on the active backend. Returns the new
state and the list of records whose save was attempted (the copy count of the
migration). -/
def migrateFromLocalStorage (st : St) (saveFail : Lesson → Option JsError) :
    St × List Lesson :=
  match st.idbActive with
  | some db =>
    let r := migrateIDB db st.localStore saveFail
    ({ st with db := some r.1 }, r.2)
  | none =>
    let r :=
      match st.localStore.getItem "aiLessons" with
      | some (.arr lessons) => saveEachLoopLS st.localStore lessons
      | none => (st.localStore, [], none)
    ({ st with localStore := r.1 }, r.2.1)

/-! ## Initialization -/

/-- The environment's answer to `indexedDB.open(dbName, dbVersion)`: the
request either errors, or succeeds yielding the (possibly just-created, then
empty) database content. The `onupgradeneeded` handler (lines 51-61) creates
the two object stores, so a fresh database arrives as `⟨[], []⟩`. -/
inductive OpenResult where
  | failure (e : JsError)
  | success (content : IDB)

/-- Everything `init` consumes from its environment: whether
`window.indexedDB` exists, the outcome of the open request, and the outcome
of each migration-time put request. -/
structure InitEnv where
  idbAvailable : Bool
  openResult : OpenResult
  saveFail : Lesson → Option JsError

/-- `init` (lines 19-63) as one caller observes it, with the fire-and-forget
migration (line 46) run to completion. Returns the resulting state, the value
the returned promise settles with (the `reject` callback of line 30 is never
invoked by the source, so every path resolves), and the number of records the
migration copied. -/
def init (st : St) (env : InitEnv) : St × Except StorageError Bool × Nat :=
  if st.initialized then (st, .ok true, 0)
  else if env.idbAvailable = false then
    ({ st with useIndexedDB := false, initialized := true }, .ok true, 0)
  else
    match env.openResult with
    | .failure _ =>
      ({ st with useIndexedDB := false, initialized := true }, .ok true, 0)
    | .success content =>
      let st1 := { st with db := some content, initialized := true }
      let r := migrateFromLocalStorage st1 env.saveFail
      (r.1, .ok true, r.2.length)

/-- State after `init` (used by every public method's leading
`await this.init()`). -/
def initState (st : St) (env : InitEnv) : St := (init st env).1

/-! ### The synchronous prefix of `init`, for interleaving analysis

`init` runs synchronously from its entry to the `indexedDB.open` call
(line 31): the `this.initialized` check (line 20), the availability check
(line 23), and the issuing of the open request all happen before control
returns to the event loop, while `this.initialized` is only assigned inside
the request callbacks (lines 36 and 42). Interleaved first calls therefore
each execute this prefix against a state in which `initialized` is still
false. -/

/-- How one execution of the synchronous prefix of `init` ends. -/
inductive InitSyncResult where
  | resolvedEarly
  | fellBack
  | openIssued
deriving Repr, DecidableEq

/-- The synchronous prefix of `init` (lines 19-31): return early when
initialized; select the fallback when IndexedDB is unavailable; otherwise
issue an open request, leaving `initialized` untouched until a callback
fires. -/
def initSyncPhase (st : St) (idbAvailable : Bool) : St × InitSyncResult :=
  if st.initialized then (st, .resolvedEarly)
  else if idbAvailable = false then
    ({ st with useIndexedDB := false, initialized := true }, .fellBack)
  else (st, .openIssued)

/-- Open attempts made by one run of the synchronous prefix. -/
def openAttempts (r : InitSyncResult) : Nat :=
  if r = .openIssued then 1 else 0

/-- Total `indexedDB.open` attempts when two `init` calls are interleaved
before either open callback has fired (the second call's prefix runs against
the state the first prefix left behind). -/
def twoCallOpenAttempts (st : St) (idbAvailable : Bool) : Nat :=
  let r1 := initSyncPhase st idbAvailable
  let r2 := initSyncPhase r1.1 idbAvailable
  openAttempts r1.2 + openAttempts r2.2

/-! ## Public methods: `init` followed by the dispatching body -/

/-- Public `saveLesson` (lines 94-113). -/
def saveLesson (st : St) (env : InitEnv) (lesson : Lesson) (reqErr : Option JsError) :
    St × Except StorageError Bool :=
  saveLessonRun (initState st env) lesson reqErr

/-- Public `getAllLessons` (lines 118-138); the state component is what the
call leaves behind (only `init` mutates on this path). -/
def getAllLessons (st : St) (env : InitEnv) (reqErr : Option JsError) :
    St × List Lesson :=
  (initState st env, getAllLessonsRun (initState st env) reqErr)

/-- Public `getLesson` (lines 143-159). -/
def getLesson (st : St) (env : InitEnv) (lessonId : Nat) (reqErr : Option JsError) :
    St × Except StorageError (Option Lesson) :=
  (initState st env, getLessonRun (initState st env) lessonId reqErr)

/-- Public `deleteLesson` (lines 164-182). -/
def deleteLesson (st : St) (env : InitEnv) (lessonId : Nat) (reqErr : Option JsError)
    (saveFail : Lesson → Option JsError) : St × Except StorageError Bool :=
  deleteLessonRun (initState st env) lessonId reqErr saveFail

/-- Public `saveAllLessons` (lines 187-216). -/
def saveAllLessons (st : St) (env : InitEnv) (lessons : List Lesson)
    (saveFail : Lesson → Option JsError) : St × Except StorageError Bool :=
  saveAllLessonsRun (initState st env) lessons saveFail

/-- Public `saveMetadata` (lines 221-235). -/
def saveMetadata (st : St) (env : InitEnv) (key : String) (value : Bool)
    (reqErr : Option JsError) : St × Except StorageError Bool :=
  saveMetadataRun (initState st env) key value reqErr

/-- Public `getMetadata` (lines 240-254). -/
def getMetadata (st : St) (env : InitEnv) (key : String) (reqErr : Option JsError) :
    St × Option Bool :=
  (initState st env, getMetadataRun (initState st env) key reqErr)

/-- Public `getStorageInfo` (lines 288-295). -/
def getStorageInfo (st : St) (env : InitEnv) (reqErr : Option JsError) :
    St × StorageInfo :=
  (initState st env, getStorageInfoRun (initState st env) reqErr)

/-! ## Lemmas: keyed upserts -/

theorem putLesson_of_id_not_mem (arr : List Lesson) (item : Lesson)
    (h : ∀ x ∈ arr, x.id ≠ item.id) : putLesson arr item = arr ++ [item] := by
  induction arr with
  | nil => rfl
  | cons x rest ih =>
    have hx : ¬x.id = item.id := h x (List.mem_cons_self x rest)
    simp only [putLesson, beq_iff_eq, if_neg hx, List.cons_append, List.cons.injEq, true_and]
    exact ih fun y hy => h y (List.mem_cons_of_mem _ hy)

theorem putLesson_eq_set (arr : List Lesson) (item : Lesson) :
    ∀ i, arr.findIdx? (fun x => x.id == item.id) = some i →
      putLesson arr item = arr.set i item := by
  induction arr with
  | nil => intro i h; simp at h
  | cons x rest ih =>
    intro i h
    rw [List.findIdx?_cons] at h
    by_cases hx : x.id = item.id
    · simp only [hx, beq_self_eq_true, if_pos, Option.some.injEq] at h
      subst h
      simp [putLesson, hx]
    · have hxb : (x.id == item.id) = false := by simp [hx]
      rw [hxb] at h
      simp only [Bool.false_eq_true, if_neg] at h
      rw [show (1 : Nat) = 0 + 1 from rfl, List.findIdx?_succ] at h
      rcases Option.map_eq_some'.mp h with ⟨j, hj, rfl⟩
      have hput : putLesson (x :: rest) item = x :: putLesson rest item := by
        simp [putLesson, hxb]
      rw [hput, List.set_cons_succ, ih j hj]

theorem find?_set_self (arr : List Lesson) (item : Lesson) :
    ∀ i, arr.findIdx? (fun x => x.id == item.id) = some i →
      (arr.set i item).find? (fun x => x.id == item.id) = some item := by
  induction arr with
  | nil => intro i h; simp at h
  | cons x rest ih =>
    intro i h
    rw [List.findIdx?_cons] at h
    by_cases hx : x.id = item.id
    · simp only [hx, beq_self_eq_true, if_pos, Option.some.injEq] at h
      subst h
      simp [List.find?]
    · have hxb : (x.id == item.id) = false := by simp [hx]
      rw [hxb] at h
      simp only [Bool.false_eq_true, if_neg] at h
      rw [show (1 : Nat) = 0 + 1 from rfl, List.findIdx?_succ] at h
      rcases Option.map_eq_some'.mp h with ⟨j, hj, rfl⟩
      have hneg : List.find? (fun y => y.id == item.id) (x :: rest.set j item) =
          List.find? (fun y => y.id == item.id) (rest.set j item) :=
        List.find?_cons_of_neg _ (by simp [hx])
      rw [List.set_cons_succ, hneg, ih j hj]

theorem putMeta_getMeta_self (arr : List MetaRec) (m : MetaRec) :
    IDB.getMeta ⟨[], putMeta arr m⟩ m.key = some m.value := by
  induction arr with
  | nil => simp [putMeta, IDB.getMeta, List.find?]
  | cons x rest ih =>
    by_cases hx : x.key = m.key
    · simp [putMeta, hx, IDB.getMeta, List.find?]
    · have hp : putMeta (x :: rest) m = x :: putMeta rest m := by
        simp [putMeta, hx]
      have hneg : List.find? (fun r => r.key == m.key) (x :: putMeta rest m) =
          List.find? (fun r => r.key == m.key) (putMeta rest m) :=
        List.find?_cons_of_neg _ (by simp [hx])
      unfold IDB.getMeta at ih ⊢
      rw [hp, hneg]
      exact ih

theorem find?_upsertKV_self (items : List (String × LSVal)) (key : String) (v : LSVal) :
    (upsertKV items key v).find? (fun p => p.1 == key) = some (key, v) := by
  induction items with
  | nil => simp [upsertKV, List.find?]
  | cons kv rest ih =>
    obtain ⟨k0, v0⟩ := kv
    by_cases h : k0 = key
    · simp [upsertKV, h, List.find?]
    · have hu : upsertKV ((k0, v0) :: rest) key v = (k0, v0) :: upsertKV rest key v := by
        simp [upsertKV, h]
      have hneg : List.find? (fun p => p.1 == key) ((k0, v0) :: upsertKV rest key v) =
          List.find? (fun p => p.1 == key) (upsertKV rest key v) :=
        List.find?_cons_of_neg _ (by simp [h])
      rw [hu, hneg, ih]

theorem getItem_upsertKV_self (s : LocalStore) (key : String) (v : LSVal) (cap : Nat) :
    LocalStore.getItem ⟨upsertKV s.items key v, cap⟩ key = some v := by
  simp [LocalStore.getItem, find?_upsertKV_self]

theorem setItem_ok (s : LocalStore) (key : String) (v : LSVal) (s2 : LocalStore)
    (h : s.setItem key v = .ok s2) :
    s2 = ⟨upsertKV s.items key v, s.capacity⟩ ∧ v.size ≤ s.capacity := by
  unfold LocalStore.setItem at h
  by_cases hc : v.size > s.capacity
  · rw [if_pos hc] at h; cases h
  · rw [if_neg hc] at h
    exact ⟨by cases h; rfl, Nat.le_of_not_lt hc⟩

theorem setItem_of_le (s : LocalStore) (key : String) (v : LSVal)
    (h : v.size ≤ s.capacity) :
    s.setItem key v = .ok ⟨upsertKV s.items key v, s.capacity⟩ := by
  unfold LocalStore.setItem
  rw [if_neg (Nat.not_lt.mpr h)]

theorem setItem_of_gt (s : LocalStore) (key : String) (v : LSVal)
    (h : v.size > s.capacity) : s.setItem key v = .error quotaErr := by
  unfold LocalStore.setItem
  rw [if_pos h]

/-! ## Lemmas: serialized sizes -/

theorem lessonsJsonSize_append (xs ys : List Lesson) :
    lessonsJsonSize (xs ++ ys) =
      lessonsJsonSize xs + (ys.map Lesson.jsonSize).sum + ys.length := by
  simp only [lessonsJsonSize, List.map_append, List.sum_append, List.length_append]
  omega

theorem lessonsJsonSize_prefix_le (xs ys : List Lesson) :
    lessonsJsonSize xs ≤ lessonsJsonSize (xs ++ ys) := by
  rw [lessonsJsonSize_append]
  omega

/-! ## Lemmas: the sequential save loop and upsert folds -/

theorem saveEachLoop_ok (db : IDB) (lessons : List Lesson)
    (sf : Lesson → Option JsError) (h : ∀ l ∈ lessons, sf l = none) :
    saveEachLoop db lessons sf =
      (⟨lessons.foldl putLesson db.lessons, db.metadata⟩, lessons, none) := by
  induction lessons generalizing db with
  | nil => rfl
  | cons l rest ih =>
    have hl : sf l = none := h l (List.mem_cons_self l rest)
    have hrec := ih { db with lessons := putLesson db.lessons l }
      (fun y hy => h y (List.mem_cons_of_mem _ hy))
    simp only [saveEachLoop, hl, hrec, List.foldl_cons]

theorem saveEachLoop_fail (pre : List Lesson) (bad : Lesson) (post : List Lesson)
    (sf : Lesson → Option JsError) (e : JsError)
    (hpre : ∀ l ∈ pre, sf l = none) (hbad : sf bad = some e) :
    ∀ db : IDB, saveEachLoop db (pre ++ bad :: post) sf =
      (⟨pre.foldl putLesson db.lessons, db.metadata⟩, pre ++ [bad], some e) := by
  induction pre with
  | nil => intro db; simp only [List.nil_append, saveEachLoop, hbad, List.foldl_nil]
  | cons l rest ih =>
    intro db
    have hl : sf l = none := hpre l (List.mem_cons_self l rest)
    have hrec := ih (fun y hy => hpre y (List.mem_cons_of_mem _ hy))
      { db with lessons := putLesson db.lessons l }
    simp only [List.cons_append, saveEachLoop, hl, List.append_eq, hrec, List.foldl_cons]

theorem foldl_putLesson_of_disjoint (lessons : List Lesson) :
    ∀ acc : List Lesson, (lessons.map Lesson.id).Nodup →
      (∀ l ∈ lessons, ∀ a ∈ acc, a.id ≠ l.id) →
      lessons.foldl putLesson acc = acc ++ lessons := by
  induction lessons with
  | nil => intro acc _ _; simp
  | cons l rest ih =>
    intro acc hnd hdisj
    rw [List.map_cons, List.nodup_cons] at hnd
    rw [List.foldl_cons,
      putLesson_of_id_not_mem acc l (fun a ha => hdisj l (List.mem_cons_self l rest) a ha)]
    rw [ih (acc ++ [l]) hnd.2 ?hdisj]
    · simp
    case hdisj =>
      intro r hr a ha
      rcases List.mem_append.mp ha with hacc | hl
      · exact hdisj r (List.mem_cons_of_mem _ hr) a hacc
      · have : a = l := by simpa using hl
        subst this
        intro hcontra
        exact hnd.1 (hcontra ▸ List.mem_map_of_mem Lesson.id hr)

/-! ## Lemmas: `init` and field preservation -/

theorem init_of_initialized (st : St) (env : InitEnv) (h : st.initialized = true) :
    init st env = (st, .ok true, 0) := by
  simp [init, h]

theorem initState_of_initialized (st : St) (env : InitEnv) (h : st.initialized = true) :
    initState st env = st := by
  simp [initState, init_of_initialized st env h]

theorem saveLessonRun_fields (st : St) (lesson : Lesson) (reqErr : Option JsError) :
    (saveLessonRun st lesson reqErr).1.useIndexedDB = st.useIndexedDB ∧
    (saveLessonRun st lesson reqErr).1.initialized = st.initialized := by
  unfold saveLessonRun
  split
  · split <;> exact ⟨rfl, rfl⟩
  · exact ⟨rfl, rfl⟩

theorem saveAllLessonsRun_fields (st : St) (lessons : List Lesson)
    (sf : Lesson → Option JsError) :
    (saveAllLessonsRun st lessons sf).1.useIndexedDB = st.useIndexedDB ∧
    (saveAllLessonsRun st lessons sf).1.initialized = st.initialized := by
  unfold saveAllLessonsRun
  split
  · next db heq =>
      cases hc : (saveEachLoop { lessons := [], metadata := db.metadata } lessons sf).2.2 <;>
        simp [hc]
  · exact ⟨rfl, rfl⟩

theorem deleteLessonRun_fields (st : St) (lessonId : Nat) (reqErr : Option JsError)
    (sf : Lesson → Option JsError) :
    (deleteLessonRun st lessonId reqErr sf).1.useIndexedDB = st.useIndexedDB ∧
    (deleteLessonRun st lessonId reqErr sf).1.initialized = st.initialized := by
  unfold deleteLessonRun
  split
  · split <;> exact ⟨rfl, rfl⟩
  · exact saveAllLessonsRun_fields _ _ _

theorem saveMetadataRun_fields (st : St) (key : String) (value : Bool)
    (reqErr : Option JsError) :
    (saveMetadataRun st key value reqErr).1.useIndexedDB = st.useIndexedDB ∧
    (saveMetadataRun st key value reqErr).1.initialized = st.initialized := by
  unfold saveMetadataRun
  split
  · split <;> exact ⟨rfl, rfl⟩
  · exact ⟨rfl, rfl⟩

/-! ## Lemmas: save sequences against each backend -/

/-- A sequence of successful `saveLesson` calls against an already
initialized component (each method's own `init` call returns immediately on
that path, so the dispatching bodies compose directly). -/
def runSaves (st : St) (records : List Lesson) : St :=
  records.foldl (fun s l => (saveLessonRun s l none).1) st

theorem getAllLessonsRun_idb (st : St) (db : IDB) (h : st.idbActive = some db) :
    getAllLessonsRun st none = db.lessons := by
  unfold getAllLessonsRun
  rw [h]

theorem getAllLessonsRun_fallback_eq (st : St) (h : st.idbActive = none) :
    getAllLessonsRun st none =
      (match st.localStore.getItem "aiLessons" with
       | some (.arr a) => a
       | none => []) := by
  unfold getAllLessonsRun
  rw [h]

theorem runSaves_idb (records : List Lesson) :
    ∀ (st : St) (db : IDB), st.useIndexedDB = true → st.db = some db →
      runSaves st records =
        { st with db := some ⟨records.foldl putLesson db.lessons, db.metadata⟩ } := by
  induction records with
  | nil =>
    intro st db hu hdb
    cases st with
    | mk u d i l =>
      cases hdb
      rfl
  | cons r rest ih =>
    intro st db hu hdb
    have hact : st.idbActive = some db := by simp [St.idbActive, hu, hdb]
    have hstep : (saveLessonRun st r none).1 =
        { st with db := some ⟨putLesson db.lessons r, db.metadata⟩ } := by
      simp [saveLessonRun, hact]
    have hch : runSaves st (r :: rest) = runSaves ((saveLessonRun st r none).1) rest := rfl
    rw [hch, hstep,
      ih { st with db := some ⟨putLesson db.lessons r, db.metadata⟩ }
        ⟨putLesson db.lessons r, db.metadata⟩ hu rfl]
    simp

theorem runSaves_fallback (rest : List Lesson) :
    ∀ (st : St) (acc : List Lesson),
      st.useIndexedDB = false →
      getAllLessonsRun st none = acc →
      ((acc ++ rest).map Lesson.id).Nodup →
      lessonsJsonSize (acc ++ rest) ≤ st.localStore.capacity →
      getAllLessonsRun (runSaves st rest) none = acc ++ rest ∧
      (runSaves st rest).useIndexedDB = false ∧
      (runSaves st rest).initialized = st.initialized ∧
      (runSaves st rest).localStore.capacity = st.localStore.capacity := by
  induction rest with
  | nil =>
    intro st acc hu harr hnd hcap
    refine ⟨?_, hu, rfl, rfl⟩
    simpa using harr
  | cons r rest ih =>
    intro st acc hu harr hnd hcap
    have hact : st.idbActive = none := by simp [St.idbActive, hu]
    have harr0 : (match st.localStore.getItem "aiLessons" with
        | some (.arr a) => a
        | none => []) = acc := by
      rw [← getAllLessonsRun_fallback_eq st hact]
      exact harr
    have hnode : ∀ x ∈ acc, (x.id == r.id) = false := by
      intro x hx
      have hmap := hnd
      rw [List.map_append, List.nodup_append] at hmap
      have hdisj := hmap.2.2 (List.mem_map_of_mem Lesson.id hx)
      simp only [beq_eq_false_iff_ne, ne_eq]
      intro hEq
      exact hdisj (by simpa using Or.inl hEq)
    have hfind : acc.findIdx? (fun i => i.id == r.id) = none :=
      List.findIdx?_eq_none_iff.mpr hnode
    have hsplit : acc ++ r :: rest = (acc ++ [r]) ++ rest := by simp
    have hsize : (LSVal.arr (acc ++ [r])).size ≤ st.localStore.capacity := by
      have h1 : lessonsJsonSize (acc ++ [r]) ≤ lessonsJsonSize (acc ++ r :: rest) := by
        rw [hsplit]
        exact lessonsJsonSize_prefix_le _ _
      exact le_trans h1 hcap
    have hstep : (saveLessonRun st r none).1 =
        { st with localStore :=
            ⟨upsertKV st.localStore.items "aiLessons" (.arr (acc ++ [r])),
             st.localStore.capacity⟩ } := by
      simp only [saveLessonRun, hact, saveToLocalStorageArr, harr0, hfind,
        setItem_of_le _ _ _ hsize]
    have harr1 : getAllLessonsRun
        { st with localStore :=
            ⟨upsertKV st.localStore.items "aiLessons" (.arr (acc ++ [r])),
             st.localStore.capacity⟩ } none = acc ++ [r] := by
      rw [getAllLessonsRun_fallback_eq _ (by simp [St.idbActive, hu])]
      rw [getItem_upsertKV_self st.localStore "aiLessons" (.arr (acc ++ [r]))]
    have hres := ih
      { st with localStore :=
          ⟨upsertKV st.localStore.items "aiLessons" (.arr (acc ++ [r])),
           st.localStore.capacity⟩ }
      (acc ++ [r]) hu harr1 (by rw [← hsplit]; exact hnd)
      (by rw [← hsplit]; exact hcap)
    have hch : runSaves st (r :: rest) = runSaves ((saveLessonRun st r none).1) rest := rfl
    rw [hch, hstep]
    refine ⟨?_, hres.2.1, hres.2.2.1, hres.2.2.2⟩
    rw [hres.1, ← hsplit]

/-! ## Claim theorems -/

/-- Claim C1. The claim states that two callers invoking a public operation
before initialization completes trigger exactly one `indexedDB.open` attempt.
The code refutes this: `init` memoizes only on `this.initialized` (line 20),
which is assigned exclusively inside the asynchronous open callbacks
(lines 36 and 42), so two `init` calls interleaved before either callback
fires each pass the guard and each issue an open request: two open attempts,
not one. -/
theorem init_race_two_open_attempts :
    twoCallOpenAttempts (mkStorage ⟨[], 1000⟩) true = 2 := by
  decide

/-- Claim C2, counterexample. The claim states that a failing record save
does not abort the migration of the remaining records. At the concrete legacy
array `[{id 1}, {id 2}]` where the save of record 1 rejects, record 2 is never
attempted: the `await` inside the `for` loop (line 79) throws straight into
the surrounding `catch` (line 86). -/
theorem migrate_abort_counterexample :
    (⟨2, "b"⟩ : Lesson) ∉
      (migrateIDB ⟨[], []⟩ ⟨[("aiLessons", .arr [⟨1, "a"⟩, ⟨2, "b"⟩])], 1000⟩
        (fun l => if l.id == 1 then some ⟨"DataError", 0, "put failed"⟩ else none)).2 := by
  decide

/-- Claim C2, amended. During migration the records are saved sequentially in
array order, but a failure of one record's save ABORTS the migration of the
remaining records: when every record before `bad` saves fine and `bad`'s save
rejects, exactly the records up to and including `bad` are attempted, only
those before `bad` are stored, the rejection is caught and merely logged
(`migrateFromLocalStorage` never re-throws — its whole body sits in a
`try`/`catch` that only logs, which is why `migrateIDB` returns totally), and
the `migrated` flag is not set. -/
theorem migrate_record_failure_aborts (db : IDB) (ls : LocalStore)
    (pre : List Lesson) (bad : Lesson) (post : List Lesson)
    (sf : Lesson → Option JsError) (e : JsError)
    (hflag : db.getMeta "migrated" = none)
    (hentry : ls.getItem "aiLessons" = some (.arr (pre ++ bad :: post)))
    (hpre : ∀ l ∈ pre, sf l = none) (hbad : sf bad = some e) :
    (migrateIDB db ls sf).2 = pre ++ [bad] ∧
    (migrateIDB db ls sf).1.lessons = pre.foldl putLesson db.lessons ∧
    (migrateIDB db ls sf).1.getMeta "migrated" = none := by
  have hloop := saveEachLoop_fail pre bad post sf e hpre hbad db
  simp only [migrateIDB, hflag, hentry, hloop]
  exact ⟨trivial, trivial, hflag⟩

/-- Witness for the amended C2 theorem at the concrete two-record legacy
array: only the failing first record is attempted. -/
theorem migrate_record_failure_aborts_witness :
    (migrateIDB ⟨[], []⟩ ⟨[("aiLessons", .arr [⟨1, "a"⟩, ⟨2, "b"⟩])], 1000⟩
        (fun l => if l.id == 1 then some ⟨"DataError", 0, "put failed"⟩ else none)).2 =
      [] ++ [(⟨1, "a"⟩ : Lesson)] :=
  (migrate_record_failure_aborts ⟨[], []⟩
    ⟨[("aiLessons", .arr [⟨1, "a"⟩, ⟨2, "b"⟩])], 1000⟩
    [] ⟨1, "a"⟩ [⟨2, "b"⟩]
    (fun l => if l.id == 1 then some ⟨"DataError", 0, "put failed"⟩ else none)
    ⟨"DataError", 0, "put failed"⟩
    rfl rfl (by intro l hl; cases hl) rfl).1

/-- Claim C4. For every open failure of the transactional store,
initialization selects the synchronous fallback (`useIndexedDB = false`),
marks the component initialized, and resolves successfully; moreover the
initialization promise never rejects for ANY environment (the `reject`
callback of line 30 is dead code). -/
theorem init_open_failure_resolves (st : St) (e : JsError)
    (sf : Lesson → Option JsError) (h : st.initialized = false) :
    (init st ⟨true, .failure e, sf⟩).1.useIndexedDB = false ∧
    (init st ⟨true, .failure e, sf⟩).1.initialized = true ∧
    (init st ⟨true, .failure e, sf⟩).2.1 = .ok true ∧
    ∀ env : InitEnv, (init st env).2.1 = .ok true := by
  refine ⟨by simp [init, h], by simp [init, h], by simp [init, h], ?_⟩
  intro env
  unfold init
  split
  · rfl
  split
  · rfl
  split
  · rfl
  · rfl

/-- Witness for C4 at a concrete fresh component and a concrete open error. -/
theorem init_open_failure_resolves_witness :
    (init (mkStorage ⟨[], 1000⟩)
        ⟨true, .failure ⟨"AbortError", 20, "open failed"⟩, fun _ => none⟩).1.useIndexedDB
        = false ∧
    (init (mkStorage ⟨[], 1000⟩)
        ⟨true, .failure ⟨"AbortError", 20, "open failed"⟩, fun _ => none⟩).1.initialized
        = true ∧
    (init (mkStorage ⟨[], 1000⟩)
        ⟨true, .failure ⟨"AbortError", 20, "open failed"⟩, fun _ => none⟩).2.1
        = .ok true :=
  ⟨(init_open_failure_resolves (mkStorage ⟨[], 1000⟩) ⟨"AbortError", 20, "open failed"⟩
      (fun _ => none) rfl).1,
   (init_open_failure_resolves (mkStorage ⟨[], 1000⟩) ⟨"AbortError", 20, "open failed"⟩
      (fun _ => none) rfl).2.1,
   (init_open_failure_resolves (mkStorage ⟨[], 1000⟩) ⟨"AbortError", 20, "open failed"⟩
      (fun _ => none) rfl).2.2.1⟩

/-- Claim C7. Under the fallback backend, `saveAllLessons` on a payload whose
serialized size exceeds the storage capacity fails with the distinguished
quota-exceeded error carrying the user-facing message, leaves the previously
stored value (indeed the whole state) unchanged, and the catch clause
re-throws any non-quota storage error as-is. -/
theorem saveAllLessons_quota (st : St) (records : List Lesson)
    (sf : Lesson → Option JsError)
    (hfb : st.idbActive = none)
    (hover : lessonsJsonSize records > st.localStore.capacity) :
    (saveAllLessonsRun st records sf).1 = st ∧
    (saveAllLessonsRun st records sf).2 =
      .error (.quotaExceeded "Storage quota exceeded. Your lesson is too large. Please enable IndexedDB in your browser or reduce lesson size.") ∧
    ∀ e2 : JsError, e2.name ≠ "QuotaExceededError" → e2.code ≠ 22 →
      saveAllCatch e2 = .js e2 := by
  have hset : st.localStore.setItem "aiLessons" (.arr records) = .error quotaErr :=
    setItem_of_gt _ _ _ hover
  refine ⟨?_, ?_, ?_⟩
  · simp only [saveAllLessonsRun, hfb, saveAllLessonsLS, hset]
  · simp only [saveAllLessonsRun, hfb, saveAllLessonsLS, hset]
    rfl
  · intro e2 h1 h2
    have hcond : (e2.name == "QuotaExceededError" || e2.code == 22) = false := by
      simp [h1, h2]
    unfold saveAllCatch
    rw [hcond]
    simp

/-- Witness for C7: a stored one-record array with capacity 25 and a
two-record payload of serialized size 44. -/
theorem saveAllLessons_quota_witness :
    (saveAllLessonsRun ⟨false, none, true, ⟨[("aiLessons", .arr [⟨1, "a"⟩])], 25⟩⟩
        [⟨1, "a"⟩, ⟨2, "b"⟩] (fun _ => none)).1 =
      ⟨false, none, true, ⟨[("aiLessons", .arr [⟨1, "a"⟩])], 25⟩⟩ ∧
    (saveAllLessonsRun ⟨false, none, true, ⟨[("aiLessons", .arr [⟨1, "a"⟩])], 25⟩⟩
        [⟨1, "a"⟩, ⟨2, "b"⟩] (fun _ => none)).2 =
      .error (.quotaExceeded "Storage quota exceeded. Your lesson is too large. Please enable IndexedDB in your browser or reduce lesson size.") :=
  ⟨(saveAllLessons_quota ⟨false, none, true, ⟨[("aiLessons", .arr [⟨1, "a"⟩])], 25⟩⟩
      [⟨1, "a"⟩, ⟨2, "b"⟩] (fun _ => none) rfl (by decide)).1,
   (saveAllLessons_quota ⟨false, none, true, ⟨[("aiLessons", .arr [⟨1, "a"⟩])], 25⟩⟩
      [⟨1, "a"⟩, ⟨2, "b"⟩] (fun _ => none) rfl (by decide)).2.1⟩

/-- Claim C8. `getLesson` on an id not present in the store resolves to the
"not found" value (`none`) and never rejects, under both backends; under the
transactional backend a lookup error also resolves to "not found"; and for
every request outcome the result is a resolution, never a rejection. -/
theorem getLesson_not_found (st : St) (lessonId : Nat)
    (habs : ∀ l ∈ getAllLessonsRun st none, l.id ≠ lessonId) :
    getLessonRun st lessonId none = .ok none ∧
    (∀ e : JsError, st.idbActive.isSome = true →
      getLessonRun st lessonId (some e) = .ok none) ∧
    ∀ reqErr : Option JsError, ∃ v, getLessonRun st lessonId reqErr = .ok v := by
  have hfind : ∀ (xs : List Lesson), (∀ l ∈ xs, l.id ≠ lessonId) →
      xs.find? (fun l => l.id == lessonId) = none := by
    intro xs hxs
    apply List.find?_eq_none.mpr
    intro x hx
    simp [hxs x hx]
  refine ⟨?_, ?_, ?_⟩
  · simp only [getLessonRun]
    cases hact : st.idbActive with
    | some db =>
      rw [getAllLessonsRun_idb st db hact] at habs
      show Except.ok (db.lessons.find? (fun l => l.id == lessonId)) = Except.ok none
      rw [hfind db.lessons habs]
    | none =>
      show Except.ok ((getAllLessonsRun st none).find? (fun l => l.id == lessonId)) =
        Except.ok none
      rw [hfind _ habs]
  · intro e hsome
    simp only [getLessonRun]
    cases hact : st.idbActive with
    | some db => rfl
    | none => rw [hact] at hsome; cases hsome
  · intro reqErr
    simp only [getLessonRun]
    cases hact : st.idbActive with
    | some db =>
      cases reqErr with
      | some e => exact ⟨none, rfl⟩
      | none => exact ⟨_, rfl⟩
    | none => exact ⟨_, rfl⟩

/-- Witness for C8: id 42 against a transactional store holding only id 1. -/
theorem getLesson_not_found_witness :
    getLessonRun ⟨true, some ⟨[⟨1, "a"⟩], []⟩, true, ⟨[], 100⟩⟩ 42 none = .ok none :=
  (getLesson_not_found ⟨true, some ⟨[⟨1, "a"⟩], []⟩, true, ⟨[], 100⟩⟩ 42 (by decide)).1

/-- Claim C9. Once `initialized` is true, no public operation changes the
backend choice (`useIndexedDB`): each operation's leading `init` call returns
immediately, and the operation bodies never assign the flag. -/
theorem backend_stable_after_init (st : St) (env : InitEnv) (h : st.initialized = true)
    (lesson : Lesson) (records : List Lesson) (lessonId : Nat) (key : String)
    (value : Bool) (reqErr : Option JsError) (sf : Lesson → Option JsError) :
    (saveLesson st env lesson reqErr).1.useIndexedDB = st.useIndexedDB ∧
    (getAllLessons st env reqErr).1.useIndexedDB = st.useIndexedDB ∧
    (getLesson st env lessonId reqErr).1.useIndexedDB = st.useIndexedDB ∧
    (deleteLesson st env lessonId reqErr sf).1.useIndexedDB = st.useIndexedDB ∧
    (saveAllLessons st env records sf).1.useIndexedDB = st.useIndexedDB ∧
    (saveMetadata st env key value reqErr).1.useIndexedDB = st.useIndexedDB ∧
    (getMetadata st env key reqErr).1.useIndexedDB = st.useIndexedDB ∧
    (getStorageInfo st env reqErr).1.useIndexedDB = st.useIndexedDB := by
  have hi := initState_of_initialized st env h
  refine ⟨?_, ?_, ?_, ?_, ?_, ?_, ?_, ?_⟩
  · unfold saveLesson; rw [hi]; exact (saveLessonRun_fields st lesson reqErr).1
  · unfold getAllLessons; rw [hi]
  · unfold getLesson; rw [hi]
  · unfold deleteLesson; rw [hi]; exact (deleteLessonRun_fields st lessonId reqErr sf).1
  · unfold saveAllLessons; rw [hi]; exact (saveAllLessonsRun_fields st records sf).1
  · unfold saveMetadata; rw [hi]; exact (saveMetadataRun_fields st key value reqErr).1
  · unfold getMetadata; rw [hi]
  · unfold getStorageInfo; rw [hi]

/-- Witness for C9 at a concrete initialized fallback state. -/
theorem backend_stable_after_init_witness :
    (saveLesson ⟨false, none, true, ⟨[], 100⟩⟩ ⟨true, .success ⟨[], []⟩, fun _ => none⟩
        ⟨1, "a"⟩ none).1.useIndexedDB = (⟨false, none, true, ⟨[], 100⟩⟩ : St).useIndexedDB ∧
    (saveAllLessons ⟨false, none, true, ⟨[], 100⟩⟩ ⟨true, .success ⟨[], []⟩, fun _ => none⟩
        [] (fun _ => none)).1.useIndexedDB = (⟨false, none, true, ⟨[], 100⟩⟩ : St).useIndexedDB :=
  ⟨(backend_stable_after_init ⟨false, none, true, ⟨[], 100⟩⟩
      ⟨true, .success ⟨[], []⟩, fun _ => none⟩ rfl ⟨1, "a"⟩ [] 0 "k" true none
      (fun _ => none)).1,
   (backend_stable_after_init ⟨false, none, true, ⟨[], 100⟩⟩
      ⟨true, .success ⟨[], []⟩, fun _ => none⟩ rfl ⟨1, "a"⟩ [] 0 "k" true none
      (fun _ => none)).2.2.2.2.1⟩

/-- Claim C10. Under the fallback backend, `deleteLesson` IS the composition
"read all lessons, filter out the matching id, re-save the whole filtered
array via `saveAllLessons`"; consequently there are store states on which
`deleteLesson` fails with the quota-exceeded error (second conjunct: a
concrete such state). -/
theorem deleteLesson_fallback_is_filter_saveAll :
    (∀ (st : St) (lessonId : Nat) (sf : Lesson → Option JsError),
      st.idbActive = none →
      deleteLessonRun st lessonId none sf =
        saveAllLessonsRun st
          ((getAllLessonsRun st none).filter (fun l => l.id != lessonId)) sf) ∧
    (deleteLessonRun ⟨false, none, true, ⟨[("aiLessons", .arr [⟨1, "a"⟩])], 0⟩⟩
        5 none (fun _ => none)).2 =
      .error (.quotaExceeded "Storage quota exceeded. Your lesson is too large. Please enable IndexedDB in your browser or reduce lesson size.") := by
  constructor
  · intro st lessonId sf hfb
    simp only [deleteLessonRun, hfb]
  · rfl

/-- Witness for C10 at a concrete fallback state. -/
theorem deleteLesson_fallback_witness :
    deleteLessonRun ⟨false, none, true, ⟨[], 100⟩⟩ 7 none (fun _ => none) =
      saveAllLessonsRun ⟨false, none, true, ⟨[], 100⟩⟩
        ((getAllLessonsRun ⟨false, none, true, ⟨[], 100⟩⟩ none).filter (fun l => l.id != 7))
        (fun _ => none) :=
  deleteLesson_fallback_is_filter_saveAll.1 ⟨false, none, true, ⟨[], 100⟩⟩ 7
    (fun _ => none) rfl

/-! ## Remaining helper lemmas for C5, C6 and C3 -/

theorem idbActive_some (st : St) (db : IDB) (h : st.idbActive = some db) :
    st.useIndexedDB = true ∧ st.db = some db := by
  unfold St.idbActive at h
  by_cases hu : st.useIndexedDB
  · rw [if_pos hu] at h
    exact ⟨hu, h⟩
  · rw [if_neg hu] at h
    cases h

/-- The transactional replace step: `saveLesson` on an active IndexedDB
handle puts the record and resolves `true`. -/
theorem saveLessonRun_idb_replace (st : St) (db : IDB) (item : Lesson)
    (hact : st.idbActive = some db) :
    getAllLessonsRun (saveLessonRun st item none).1 none = putLesson db.lessons item ∧
    (saveLessonRun st item none).2 = .ok true := by
  obtain ⟨hu, hdb⟩ := idbActive_some st db hact
  have hrun : saveLessonRun st item none =
      ({ st with db := some ⟨putLesson db.lessons item, db.metadata⟩ }, .ok true) := by
    simp [saveLessonRun, hact]
  rw [hrun]
  refine ⟨?_, rfl⟩
  exact getAllLessonsRun_idb _ ⟨putLesson db.lessons item, db.metadata⟩
    (by simp [St.idbActive, hu])

/-- The fallback replace step: `saveLesson` on a record whose id is already
present upserts in place when the re-serialized array fits the capacity. -/
theorem saveLessonRun_fallback_replace (st : St) (item : Lesson) (i : Nat)
    (hact : st.idbActive = none)
    (hidx : (getAllLessonsRun st none).findIdx? (fun x => x.id == item.id) = some i)
    (hsize : lessonsJsonSize ((getAllLessonsRun st none).set i item) ≤
      st.localStore.capacity) :
    getAllLessonsRun (saveLessonRun st item none).1 none =
      (getAllLessonsRun st none).set i item ∧
    (saveLessonRun st item none).2 = .ok true := by
  have hmatch := (getAllLessonsRun_fallback_eq st hact).symm
  have hset := setItem_of_le st.localStore "aiLessons"
    (.arr ((getAllLessonsRun st none).set i item)) hsize
  have hrun : saveLessonRun st item none =
      ({ st with localStore :=
          ⟨upsertKV st.localStore.items "aiLessons"
            (.arr ((getAllLessonsRun st none).set i item)),
           st.localStore.capacity⟩ }, .ok true) := by
    simp only [saveLessonRun, hact, saveToLocalStorageArr, hmatch, hidx, hset]
  rw [hrun]
  refine ⟨?_, rfl⟩
  show getAllLessonsRun
      { st with localStore :=
          ⟨upsertKV st.localStore.items "aiLessons"
            (.arr ((getAllLessonsRun st none).set i item)),
           st.localStore.capacity⟩ } none =
    (getAllLessonsRun st none).set i item
  have hact1 : ({ st with localStore :=
      ⟨upsertKV st.localStore.items "aiLessons"
        (.arr ((getAllLessonsRun st none).set i item)),
       st.localStore.capacity⟩ } : St).idbActive = none := hact
  rw [getAllLessonsRun_fallback_eq _ hact1,
    getItem_upsertKV_self st.localStore "aiLessons"
      (.arr ((getAllLessonsRun st none).set i item)) st.localStore.capacity]

/-- Claim C5. For every finite sequence of `saveLesson` calls whose records
have pairwise distinct ids, starting from an empty store, a subsequent
`getAllLessons()` returns exactly those records (up to permutation — in fact
in order), under the transactional backend (first conjunct) and under the
fallback backend with sufficient capacity (second conjunct). -/
theorem saves_distinct_ids_getAllLessons (records : List Lesson) (ls : LocalStore)
    (cap : Nat)
    (hnd : (records.map Lesson.id).Nodup)
    (hcap : lessonsJsonSize records ≤ cap) :
    (getAllLessonsRun (runSaves ⟨true, some ⟨[], []⟩, true, ls⟩ records) none).Perm
      records ∧
    (getAllLessonsRun (runSaves ⟨false, none, true, ⟨[], cap⟩⟩ records) none).Perm
      records := by
  constructor
  · rw [runSaves_idb records ⟨true, some ⟨[], []⟩, true, ls⟩ ⟨[], []⟩ rfl rfl]
    show (records.foldl putLesson []).Perm records
    have hfold : records.foldl putLesson [] = records := by
      rw [foldl_putLesson_of_disjoint records [] hnd
        (fun l _ a ha => absurd ha (List.not_mem_nil a)), List.nil_append]
    rw [hfold]
  · have h := runSaves_fallback records ⟨false, none, true, ⟨[], cap⟩⟩ [] rfl rfl
      (by simpa using hnd) (by simpa using hcap)
    have h1 : getAllLessonsRun (runSaves ⟨false, none, true, ⟨[], cap⟩⟩ records) none
        = records := by
      simpa using h.1
    rw [h1]

/-- Witness for C5 at two concrete records with distinct ids. -/
theorem saves_distinct_ids_getAllLessons_witness :
    (getAllLessonsRun
        (runSaves ⟨true, some ⟨[], []⟩, true, ⟨[], 100⟩⟩ [⟨1, "a"⟩, ⟨2, "b"⟩]) none).Perm
      [⟨1, "a"⟩, ⟨2, "b"⟩] ∧
    (getAllLessonsRun
        (runSaves ⟨false, none, true, ⟨[], 100⟩⟩ [⟨1, "a"⟩, ⟨2, "b"⟩]) none).Perm
      [⟨1, "a"⟩, ⟨2, "b"⟩] :=
  saves_distinct_ids_getAllLessons [⟨1, "a"⟩, ⟨2, "b"⟩] ⟨[], 100⟩ 100
    (by decide) (by decide)

/-- Claim C6. `saveLesson` with an id already present in the store replaces
the existing record — afterwards the lookup by that id yields the new
record — and `getAllLessons().length` is unchanged; holds on any state under
either backend (for the fallback, provided the re-serialized array fits the
capacity, since the failing save would otherwise leave the store unchanged). -/
theorem saveLesson_existing_id_replaces (st : St) (item : Lesson)
    (hmem : ∃ x ∈ getAllLessonsRun st none, x.id = item.id)
    (hcap : st.idbActive = none →
      ∀ i < (getAllLessonsRun st none).length,
        lessonsJsonSize ((getAllLessonsRun st none).set i item) ≤
          st.localStore.capacity) :
    (getAllLessonsRun (saveLessonRun st item none).1 none).length =
      (getAllLessonsRun st none).length ∧
    (getAllLessonsRun (saveLessonRun st item none).1 none).find?
      (fun x => x.id == item.id) = some item ∧
    (saveLessonRun st item none).2 = .ok true := by
  have hex : ∃ x, x ∈ getAllLessonsRun st none ∧ (x.id == item.id) = true := by
    obtain ⟨x, hx, hid⟩ := hmem
    exact ⟨x, hx, by simp [hid]⟩
  have hidx := List.findIdx?_eq_some_of_exists hex
  cases hact : st.idbActive with
  | some db =>
    have hlst : getAllLessonsRun st none = db.lessons := getAllLessonsRun_idb st db hact
    rw [hlst] at hidx
    have hrepl := saveLessonRun_idb_replace st db item hact
    rw [hlst, hrepl.1, putLesson_eq_set db.lessons item _ hidx]
    refine ⟨List.length_set _ _ _, ?_, hrepl.2⟩
    exact find?_set_self db.lessons item _ hidx
  | none =>
    obtain ⟨hlt, -⟩ := List.findIdx?_eq_some_iff_getElem.mp hidx
    have hsize := hcap hact _ hlt
    have hrepl := saveLessonRun_fallback_replace st item _ hact hidx hsize
    rw [hrepl.1]
    refine ⟨List.length_set _ _ _, ?_, hrepl.2⟩
    exact find?_set_self _ item _ hidx

/-- Claim C3. With a legacy fallback entry holding `records` (distinct ids,
the data model's key invariant) and no `migrated` flag, the first successful
initialization of the transactional backend leaves exactly
`records.length` records in the transactional `'lessons'` store and sets the
`migrated` flag; a second initialization in the same process (third conjunct)
and a fresh-process initialization against the persisted database (fourth
conjunct) both perform zero copy operations. -/
theorem first_init_migrates_once (records : List Lesson) (cap : Nat) (st1 : St)
    (hnd : (records.map Lesson.id).Nodup)
    (h1 : st1 = (init (mkStorage ⟨[("aiLessons", .arr records)], cap⟩)
      ⟨true, .success ⟨[], []⟩, fun _ => none⟩).1) :
    st1.dbLessons.length = records.length ∧
    st1.migratedFlag = some true ∧
    (init st1 ⟨true, .success ⟨[], []⟩, fun _ => none⟩).2.2 = 0 ∧
    (init (mkStorage st1.localStore)
      ⟨true, .success ⟨st1.dbLessons, st1.dbMetadata⟩, fun _ => none⟩).2.2 = 0 := by
  subst h1
  have hloop := saveEachLoop_ok ⟨[], []⟩ records (fun _ => none) (fun _ _ => rfl)
  have hfold : records.foldl putLesson [] = records := by
    rw [foldl_putLesson_of_disjoint records [] hnd
      (fun l _ a ha => absurd ha (List.not_mem_nil a)), List.nil_append]
  have hstep : init (mkStorage ⟨[("aiLessons", .arr records)], cap⟩)
      ⟨true, .success ⟨[], []⟩, fun _ => none⟩ =
      (⟨true, some ⟨records, [⟨"migrated", true⟩]⟩, true,
        ⟨[("aiLessons", .arr records)], cap⟩⟩,
       .ok true, records.length) := by
    simp [init, mkStorage, migrateFromLocalStorage, St.idbActive, migrateIDB,
      IDB.getMeta, LocalStore.getItem, List.find?, putMeta, hloop, hfold]
  rw [hstep]
  refine ⟨rfl, ?_, rfl, ?_⟩
  · rfl
  · rfl

/-- Witness for C3 at a concrete one-record legacy entry. -/
theorem first_init_migrates_once_witness :
    ((init (mkStorage ⟨[("aiLessons", .arr [⟨1, "a"⟩])], 100⟩)
        ⟨true, .success ⟨[], []⟩, fun _ => none⟩).1).dbLessons.length =
      [(⟨1, "a"⟩ : Lesson)].length ∧
    ((init (mkStorage ⟨[("aiLessons", .arr [⟨1, "a"⟩])], 100⟩)
        ⟨true, .success ⟨[], []⟩, fun _ => none⟩).1).migratedFlag = some true ∧
    (init (init (mkStorage ⟨[("aiLessons", .arr [⟨1, "a"⟩])], 100⟩)
        ⟨true, .success ⟨[], []⟩, fun _ => none⟩).1
      ⟨true, .success ⟨[], []⟩, fun _ => none⟩).2.2 = 0 :=
  ⟨(first_init_migrates_once [⟨1, "a"⟩] 100 _ (by decide) rfl).1,
   (first_init_migrates_once [⟨1, "a"⟩] 100 _ (by decide) rfl).2.1,
   (first_init_migrates_once [⟨1, "a"⟩] 100 _ (by decide) rfl).2.2.1⟩

/-- Witness for C6: replacing the record with id 1 in a two-record fallback
store. -/
theorem saveLesson_existing_id_replaces_witness :
    (getAllLessonsRun
        (saveLessonRun ⟨false, none, true, ⟨[("aiLessons", .arr [⟨1, "a"⟩, ⟨2, "b"⟩])], 100⟩⟩
          ⟨1, "zz"⟩ none).1 none).length =
      (getAllLessonsRun ⟨false, none, true, ⟨[("aiLessons", .arr [⟨1, "a"⟩, ⟨2, "b"⟩])], 100⟩⟩
        none).length ∧
    (getAllLessonsRun
        (saveLessonRun ⟨false, none, true, ⟨[("aiLessons", .arr [⟨1, "a"⟩, ⟨2, "b"⟩])], 100⟩⟩
          ⟨1, "zz"⟩ none).1 none).find? (fun x => x.id == (1 : Nat)) = some ⟨1, "zz"⟩ ∧
    (saveLessonRun ⟨false, none, true, ⟨[("aiLessons", .arr [⟨1, "a"⟩, ⟨2, "b"⟩])], 100⟩⟩
      ⟨1, "zz"⟩ none).2 = .ok true :=
  saveLesson_existing_id_replaces
    ⟨false, none, true, ⟨[("aiLessons", .arr [⟨1, "a"⟩, ⟨2, "b"⟩])], 100⟩⟩ ⟨1, "zz"⟩
    (by decide) (by decide)

end LessonsStore
